import Mathlib

/-!
Shallow embedding of the cover-art operations of the MIM media info manager
(`src/mim.py`, the GUI variant whose operations return report strings, and
`src/main.py`, the CLI variant whose operations print report lines and whose
copy returns a boolean).

The tag store of the one audio file under consideration is modelled as an
`Option Tags` (`none` = the file carries no tag container).  The behaviour of
the external mutagen collaborator at the points where the Python code calls
into it (opening the file, writing the extracted image, saving the tags,
reading the image file) is passed in explicitly as an "environment" value, so
that every exception path of the Python code corresponds to a constructor of
the environment.  Each operation is a pure function from path, environment and
tag store to a result record holding the report text and the resulting
on-disk tag store.
-/

set_option autoImplicit false

namespace MIM

/-- Bytes of a file, as natural numbers. -/
abbrev Bytes := List Nat

/-- An embedded picture frame, mirroring the fields of a mutagen `APIC` frame
as read and constructed by `mim.py` / `main.py`: `encoding`, `mime`, `type`
(called `ptype` here because `type` is reserved), `desc` and `data`. -/
structure APIC where
  encoding : Nat
  mime : String
  ptype : Nat
  desc : String
  data : Bytes
deriving DecidableEq

/-- A tag container as the Python code sees it through mutagen.
`hasGetall` / `hasDelall` model `hasattr(tags, 'getall')` /
`hasattr(tags, 'delall')` (true for ID3 containers, false e.g. for Vorbis
comments); `apic` is the ordered list of picture frames that
`tags.getall('APIC')` returns; `other` stands for the keys of the non-picture
frames of the container.  In Python an empty mutagen tag container is falsy
(`not audio_file.tags` is true when the container holds no frame at all),
which is why `other` matters for the truthiness tests below. -/
structure Tags where
  hasGetall : Bool
  hasDelall : Bool
  apic : List APIC
  other : List String
deriving DecidableEq

/-- Python truthiness of `audio_file.tags`: `None` and an empty container are
falsy, a container holding at least one frame (of any kind) is truthy. -/
def tagsTruthy : Option Tags → Bool
  | none => false
  | some t => !(t.apic.isEmpty && t.other.isEmpty)

/-- Outcome of `MutagenFile(file_path)`: the call can raise, return `None`
(file not recognised as audio), or return a file object whose `tags` attribute
is the on-disk tag store. -/
inductive OpenKind where
  | raises (msg : String)
  | noFile
  | opens
deriving DecidableEq

/-- Outcome of `MP3(file_path, ID3=ID3)`: unlike `MutagenFile`, the `MP3`
constructor never returns `None`; on content it cannot parse as an MPEG
stream (FLAC, OGG, M4A, ...) it raises.  On success the object's `tags` is
the on-disk tag store parsed as ID3 (possibly `None`). -/
inductive MP3Kind where
  | raises (msg : String)
  | opens
deriving DecidableEq

/-- Collaborator behaviour consulted by `copy_cover_art`: how the mutagen
open goes, and whether writing the extracted image raises. -/
structure CopyEnv where
  kind : OpenKind
  writeErr : Option String
deriving DecidableEq

/-- Collaborator behaviour consulted by `delete_cover_art`: how the mutagen
open goes, and whether `audio_file.save()` raises. -/
structure DeleteEnv where
  kind : OpenKind
  saveErr : Option String
deriving DecidableEq

/-- Collaborator behaviour consulted by `replace_cover_art`: the result of
reading the image file, how the `MP3(...)` open goes, and whether
`audio_file.save(v2_version=3)` raises. -/
structure ReplaceEnv where
  readImage : Except String Bytes
  kind : MP3Kind
  saveErr : Option String

/- ### Path helpers (faithful to `os.path` on POSIX) -/

/-- Index of the last occurrence of `c` in `l` (Python `str.rfind`),
`none` when absent. -/
def lastIdxOf (l : List Char) (c : Char) : Option Nat :=
  match l with
  | [] => none
  | a :: as =>
    match lastIdxOf as c with
    | some i => some (i + 1)
    | none => if a = c then some 0 else none

/-- Everything after the last occurrence of `c` (the whole list when `c` is
absent). -/
def afterLast (l : List Char) (c : Char) : List Char :=
  match lastIdxOf l c with
  | none => l
  | some i => l.drop (i + 1)

/-- Python `os.path.basename` on POSIX: the part of the path after the last `/`. -/
def basename (p : String) : String := ⟨afterLast p.data '/'⟩

/-- Python `mime.split('/')[-1]`: the part of the MIME string after the last
slash (the whole string when it has no slash). -/
def mimeSubtype (m : String) : String := ⟨afterLast m.data '/'⟩

/-- Python `os.path.splitext` (posixpath): split at the last dot of the final path
component, except when that component consists only of leading dots up to the
split point. -/
def splitext (p : String) : String × String :=
  let l := p.data
  match lastIdxOf l '.' with
  | none => (p, "")
  | some d =>
    let s : Nat := match lastIdxOf l '/' with | none => 0 | some i => i + 1
    if s ≤ d then
      if (List.range' s (d - s)).any (fun j => decide (l.get? j ≠ some '.')) then
        (⟨l.take d⟩, ⟨l.drop d⟩)
      else (p, "")
    else (p, "")

/-- Python `os.path.join('cover_art', name)` on POSIX: `name` when it is absolute,
otherwise `cover_art/` prepended. -/
def joinCover (name : String) : String :=
  if name.data.head? = some '/' then name else "cover_art/" ++ name

/-- The output path the copy operations compute:
`os.path.join(COVER_ART_DIR, f'{file_basename}.{image_extension}')` with
`file_basename = splitext(basename(file_path))[0]` and
`image_extension = mime.split('/')[-1]`. -/
def outPath (file_path mime : String) : String :=
  joinCover ((splitext (basename file_path)).1 ++ ("." ++ mimeSubtype mime))

/- ### Report strings (exactly the f-strings of the Python code) -/

def msgSkipNoTags (p : String) : String :=
  "[SKIP] No tags in \"" ++ (p ++ "\"")

def msgSkipNoCover (p : String) : String :=
  "[SKIP] No cover art in \"" ++ (p ++ "\"")

def msgCopyOk (out : String) : String :=
  "[COPY] Cover art saved to \"" ++ (out ++ "\"")

def msgFailedOn (p m : String) : String :=
  "[ERROR] Failed on \"" ++ (p ++ ("\": " ++ m))

def msgDelSkipNoTags (p : String) : String :=
  "[SKIP] No tags to remove from \"" ++ (p ++ "\"")

def msgDelOk (p : String) : String :=
  "[DELETE] Cover art removed from \"" ++ (p ++ "\"")

def msgDelSkipFormat (p : String) : String :=
  "[SKIP] Tag format does not support cover deletion: \"" ++ (p ++ "\"")

def msgDelErr (p m : String) : String :=
  "[ERROR] Could not delete cover art from \"" ++ (p ++ ("\": " ++ m))

def msgReplaceOk (p : String) : String :=
  "[REPLACE] Cover art replaced in \"" ++ (p ++ "\"")

/- ### Substring predicates -/

/-- Predicate that `sub` occurs as a contiguous substring of `s` (Python `sub in s`). -/
def strHas (s sub : String) : Prop := sub.data <:+: s.data

instance (s sub : String) : Decidable (strHas s sub) :=
  inferInstanceAs (Decidable (sub.data <:+: s.data))

/-- Boolean form of `strHas`, used where the Python code itself tests
membership (`'[COPY]' in copy_result`). -/
def strHasB (s sub : String) : Bool := decide (strHas s sub)

/-- Predicate that `s` starts with `pre`. -/
def strStarts (pre s : String) : Prop := pre.data <+: s.data

instance (pre s : String) : Decidable (strStarts pre s) :=
  inferInstanceAs (Decidable (pre.data <+: s.data))

/- ### The GUI variant, `src/mim.py` (operations return report strings) -/

namespace Mim

/-- Result of `mim.copy_cover_art`: the returned report string, the image
file written to the `cover_art` directory (path and bytes) if any, and the
resulting on-disk tag store of the audio file. -/
structure CopyOut where
  report : String
  written : Option (String × Bytes)
  store : Option Tags
deriving DecidableEq

/-- Translation of `mim.copy_cover_art(file_path)` (lines 20-48 of `src/mim.py`). -/
def copy_cover_art (file_path : String) (env : CopyEnv) (store : Option Tags) :
    CopyOut :=
  match env.kind with
  | .raises m => ⟨msgFailedOn file_path m, none, store⟩
  | .noFile => ⟨msgSkipNoTags file_path, none, store⟩
  | .opens =>
    match store with
    | none => ⟨msgSkipNoTags file_path, none, none⟩
    | some t =>
      if t.apic.isEmpty && t.other.isEmpty then
        ⟨msgSkipNoTags file_path, none, some t⟩
      else
        match (if t.hasGetall then t.apic else []) with
        | [] => ⟨msgSkipNoCover file_path, none, some t⟩
        | frame :: _ =>
          let out := outPath file_path frame.mime
          match env.writeErr with
          | some m => ⟨msgFailedOn file_path m, none, some t⟩
          | none => ⟨msgCopyOk out, some (out, frame.data), some t⟩

/-- Result of `mim.delete_cover_art`: the report string and the resulting
on-disk tag store. -/
structure DeleteOut where
  report : String
  store : Option Tags
deriving DecidableEq

/-- Translation of `mim.delete_cover_art(file_path)` (lines 51-70 of `src/mim.py`).  A save
that raises leaves the on-disk store unchanged. -/
def delete_cover_art (file_path : String) (env : DeleteEnv)
    (store : Option Tags) : DeleteOut :=
  match env.kind with
  | .raises m => ⟨msgDelErr file_path m, store⟩
  | .noFile => ⟨msgDelSkipNoTags file_path, store⟩
  | .opens =>
    match store with
    | none => ⟨msgDelSkipNoTags file_path, none⟩
    | some t =>
      if t.apic.isEmpty && t.other.isEmpty then
        ⟨msgDelSkipNoTags file_path, some t⟩
      else if t.hasDelall then
        match env.saveErr with
        | some m => ⟨msgDelErr file_path m, some t⟩
        | none => ⟨msgDelOk file_path, some { t with apic := [] }⟩
      else ⟨msgDelSkipFormat file_path, some t⟩

/-- Result of `mim.extract_cover_art`. `deleteAttempted` records whether the
delete phase ran. -/
structure ExtractOut where
  report : String
  written : Option (String × Bytes)
  store : Option Tags
  deleteAttempted : Bool
deriving DecidableEq

/-- Translation of `mim.extract_cover_art(file_path)` (lines 73-80 of `src/mim.py`): run
copy, then run delete exactly when the substring `[COPY]` occurs in copy's
report. -/
def extract_cover_art (file_path : String) (cenv : CopyEnv) (denv : DeleteEnv)
    (store : Option Tags) : ExtractOut :=
  let c := copy_cover_art file_path cenv store
  if strHasB c.report "[COPY]" then
    let d := delete_cover_art file_path denv c.store
    ⟨c.report ++ ("\n" ++ d.report), c.written, d.store, true⟩
  else
    ⟨c.report, c.written, c.store, false⟩

/-- Result of `mim.replace_cover_art`: the report string, the resulting
on-disk tag store, and the ID3 version hint the save was performed with
(`none` when no save happened). -/
structure ReplaceOut where
  report : String
  store : Option Tags
  savedVersion : Option Nat

/-- Translation of `mim.replace_cover_art(file_path, image_path)` (lines 83-112 of
`src/mim.py`).  The file is opened strictly as `MP3(file_path, ID3=ID3)`; on
success its container is an ID3 container (which always supports
`getall`/`delall`, hence the `true` capability flags of the saved store); a
missing container is created by `add_tags()`.  All APIC frames are dropped,
the single new frame is added, and the store is saved with `v2_version=3`.
A save that raises leaves the on-disk store unchanged. -/
def replace_cover_art (file_path image_path : String) (env : ReplaceEnv)
    (store : Option Tags) : ReplaceOut :=
  match env.readImage with
  | .error m => ⟨msgFailedOn file_path m, store, none⟩
  | .ok image_data =>
    let ext := ((splitext image_path).2.drop 1).toLower
    let mime := "image/" ++ ext
    match env.kind with
    | .raises m => ⟨msgFailedOn file_path m, store, none⟩
    | .opens =>
      let t := store.getD ⟨true, true, [], []⟩
      let t' : Tags := ⟨true, true, [⟨3, mime, 3, "Cover", image_data⟩], t.other⟩
      match env.saveErr with
      | some m => ⟨msgFailedOn file_path m, store, none⟩
      | none => ⟨msgReplaceOk file_path, some t', some 3⟩

end Mim

/- ### The CLI variant, `src/main.py` (operations print report lines) -/

namespace Cli

/-- Result of `main.copy_cover_art`: the lines it printed, the boolean it
returned, the image file written if any, and the resulting tag store. -/
structure CopyOut where
  printed : List String
  success : Bool
  written : Option (String × Bytes)
  store : Option Tags
deriving DecidableEq

/-- Translation of `main.copy_cover_art(file_path, silent=False)` (lines 18-54 of
`src/main.py`).  Note the error branch prints even in silent mode. -/
def copy_cover_art (file_path : String) (silent : Bool) (env : CopyEnv)
    (store : Option Tags) : CopyOut :=
  match env.kind with
  | .raises m => ⟨[msgFailedOn file_path m], false, none, store⟩
  | .noFile =>
    ⟨if silent then [] else [msgSkipNoTags file_path], false, none, store⟩
  | .opens =>
    match store with
    | none =>
      ⟨if silent then [] else [msgSkipNoTags file_path], false, none, none⟩
    | some t =>
      if t.apic.isEmpty && t.other.isEmpty then
        ⟨if silent then [] else [msgSkipNoTags file_path], false, none, some t⟩
      else
        match (if t.hasGetall then t.apic else []) with
        | [] =>
          ⟨if silent then [] else [msgSkipNoCover file_path], false, none,
            some t⟩
        | frame :: _ =>
          let out := outPath file_path frame.mime
          match env.writeErr with
          | some m => ⟨[msgFailedOn file_path m], false, none, some t⟩
          | none =>
            ⟨if silent then [] else [msgCopyOk out], true,
              some (out, frame.data), some t⟩

/-- Result of `main.delete_cover_art`. -/
structure DeleteOut where
  printed : List String
  store : Option Tags
deriving DecidableEq

/-- Translation of `main.delete_cover_art(file_path)` (lines 57-79 of `src/main.py`). -/
def delete_cover_art (file_path : String) (env : DeleteEnv)
    (store : Option Tags) : DeleteOut :=
  match env.kind with
  | .raises m => ⟨[msgDelErr file_path m], store⟩
  | .noFile => ⟨[msgDelSkipNoTags file_path], store⟩
  | .opens =>
    match store with
    | none => ⟨[msgDelSkipNoTags file_path], none⟩
    | some t =>
      if t.apic.isEmpty && t.other.isEmpty then
        ⟨[msgDelSkipNoTags file_path], some t⟩
      else if t.hasDelall then
        match env.saveErr with
        | some m => ⟨[msgDelErr file_path m], some t⟩
        | none => ⟨[msgDelOk file_path], some { t with apic := [] }⟩
      else ⟨[msgDelSkipFormat file_path], some t⟩

/-- Result of `main.extract_cover_art`. -/
structure ExtractOut where
  printed : List String
  written : Option (String × Bytes)
  store : Option Tags
  deleteAttempted : Bool
deriving DecidableEq

/-- Translation of `main.extract_cover_art(file_path)` (lines 82-89 of `src/main.py`): run
copy in silent mode; when it returns `False` print the no-cover skip line and
stop, otherwise run delete. -/
def extract_cover_art (file_path : String) (cenv : CopyEnv) (denv : DeleteEnv)
    (store : Option Tags) : ExtractOut :=
  let c := copy_cover_art file_path true cenv store
  if c.success then
    let d := delete_cover_art file_path denv c.store
    ⟨c.printed ++ d.printed, c.written, d.store, true⟩
  else
    ⟨c.printed ++ [msgSkipNoCover file_path], c.written, c.store, false⟩

/-- Result of `main.replace_cover_art`. -/
structure ReplaceOut where
  printed : List String
  store : Option Tags
  savedVersion : Option Nat

/-- Translation of `main.replace_cover_art(file_path, image_path)` (lines 92-126 of
`src/main.py`); same logic as the GUI variant, printing its one report
line. -/
def replace_cover_art (file_path image_path : String) (env : ReplaceEnv)
    (store : Option Tags) : ReplaceOut :=
  match env.readImage with
  | .error m => ⟨[msgFailedOn file_path m], store, none⟩
  | .ok image_data =>
    let ext := ((splitext image_path).2.drop 1).toLower
    let mime := "image/" ++ ext
    match env.kind with
    | .raises m => ⟨[msgFailedOn file_path m], store, none⟩
    | .opens =>
      let t := store.getD ⟨true, true, [], []⟩
      let t' : Tags := ⟨true, true, [⟨3, mime, 3, "Cover", image_data⟩], t.other⟩
      match env.saveErr with
      | some m => ⟨[msgFailedOn file_path m], store, none⟩
      | none => ⟨[msgReplaceOk file_path], some t', some 3⟩

end Cli

/- ### Frames seen by `tags.getall('APIC')` -/

/-- The picture frames the copy operation sees: `tags.getall('APIC')` when
the container supports `getall`, the empty list otherwise (including when
there is no container). -/
def getallFrames : Option Tags → List APIC
  | none => []
  | some t => if t.hasGetall then t.apic else []

/-- The picture frames held by an on-disk tag store. -/
def apicOf : Option Tags → List APIC
  | none => []
  | some t => t.apic

/- ### String and list helpers -/

theorem data_append (a b : String) : (a ++ b).data = a.data ++ b.data := rfl

theorem strHas_left {a sub : String} (b : String) (h : strHas a sub) :
    strHas (a ++ b) sub := by
  show sub.data <:+: (a ++ b).data
  rw [data_append]
  exact h.trans (List.prefix_append a.data b.data).isInfix

theorem strHas_right {b sub : String} (a : String) (h : strHas b sub) :
    strHas (a ++ b) sub := by
  show sub.data <:+: (a ++ b).data
  rw [data_append]
  exact h.trans (List.suffix_append a.data b.data).isInfix

theorem strHas_self (p : String) : strHas p p := List.infix_rfl

theorem strHas_mid (a p b : String) : strHas (a ++ (p ++ b)) p :=
  strHas_right a (strHas_left b (strHas_self p))

theorem strHas_trans {s p sub : String} (h₁ : strHas s p) (h₂ : strHas p sub) :
    strHas s sub := h₂.trans h₁

theorem strStarts_left {pre a : String} (b : String) (h : strStarts pre a) :
    strStarts pre (a ++ b) := by
  show pre.data <+: (a ++ b).data
  rw [data_append]
  exact h.trans (List.prefix_append a.data b.data)

theorem strHasB_iff {s sub : String} : strHasB s sub = true ↔ strHas s sub := by
  simp [strHasB]

theorem strHasB_false {s sub : String} (h : ¬ strHas s sub) :
    strHasB s sub = false := by
  simp [strHasB, h]

/-- Two string concatenations whose concrete left parts already differ within
their first four characters are different strings. -/
theorem append_ne_append {a b x y : String} (h : a.data.take 4 ≠ b.data.take 4)
    (ha : 4 ≤ a.data.length) (hb : 4 ≤ b.data.length) : a ++ x ≠ b ++ y := by
  intro he
  apply h
  have hd : a.data ++ x.data = b.data ++ y.data := by
    rw [← data_append, ← data_append, he]
  calc a.data.take 4 = (a.data ++ x.data).take 4 :=
        (List.take_append_of_le_length ha).symm
    _ = (b.data ++ y.data).take 4 := by rw [hd]
    _ = b.data.take 4 := List.take_append_of_le_length hb

theorem msgFailedOn_ne_msgReplaceOk (p m q : String) :
    msgFailedOn p m ≠ msgReplaceOk q :=
  append_ne_append (by decide) (by decide) (by decide)

/- ### Substring decomposition, for the analysis of the `[COPY]` marker -/

theorem infix_cons_elim {α : Type*} {N : List α} {c : α} {l : List α}
    (h : N <:+: c :: l) : N <+: c :: l ∨ N <:+: l := by
  obtain ⟨s, t, hst⟩ := h
  cases s with
  | nil => exact Or.inl ⟨t, by simpa using hst⟩
  | cons a s' =>
    right
    have h2 : a :: (s' ++ (N ++ t)) = c :: l := by simpa using hst
    injection h2 with _ h3
    exact ⟨s', t, by simpa using h3⟩

/-- An occurrence of `N` inside `x ++ y` lies inside `x`, inside `y`, or
straddles the border: a nonempty proper prefix of `N` is a suffix of `x` and
the matching remainder of `N` is a prefix of `y`. -/
theorem infix_append_decomp {α : Type*} {N x y : List α} (h : N <:+: x ++ y) :
    N <:+: x ∨ N <:+: y ∨
      ∃ k, 0 < k ∧ k < N.length ∧ N.take k <:+ x ∧ N.drop k <+: y := by
  induction x with
  | nil => exact Or.inr (Or.inl (by simpa using h))
  | cons c x' ih =>
    have h' : N <:+: c :: (x' ++ y) := by simpa using h
    rcases infix_cons_elim h' with hpre | hinf
    · obtain ⟨t, ht⟩ := hpre
      have ht' : N ++ t = (c :: x') ++ y := by simpa using ht
      by_cases hlen : N.length ≤ (c :: x').length
      · left
        have h1 : N = ((c :: x') ++ y).take N.length := by
          rw [← ht']
          exact (List.take_left N t).symm
        rw [List.take_append_of_le_length hlen] at h1
        rw [h1]
        exact (List.take_prefix _ _).isInfix
      · right; right
        push_neg at hlen
        refine ⟨(c :: x').length, by simp, hlen, ?_, ?_⟩
        · have h1 : N.take (c :: x').length = c :: x' := by
            have h2 := congrArg (List.take (c :: x').length) ht'
            rw [List.take_append_of_le_length (le_of_lt hlen),
              List.take_left] at h2
            exact h2
          rw [h1]
        · have h2 : N.drop (c :: x').length ++ t = y := by
            have h3 := congrArg (List.drop (c :: x').length) ht'
            rw [List.drop_append_of_le_length (le_of_lt hlen),
              List.drop_left] at h3
            exact h3
          exact ⟨t, h2⟩
    · rcases ih hinf with h1 | h2 | ⟨k, hk0, hkN, htake, hdrop⟩
      · exact Or.inl (List.infix_cons h1)
      · exact Or.inr (Or.inl h2)
      · exact Or.inr (Or.inr ⟨k, hk0, hkN, htake.trans (List.suffix_cons c x'),
          hdrop⟩)

theorem head_of_prefix {α : Type*} {n l : List α} (h : n <+: l) (hn : n ≠ []) :
    n.head? = l.head? := by
  obtain ⟨t, rfl⟩ := h
  cases n with
  | nil => exact absurd rfl hn
  | cons a n' => rfl

theorem copyTag_length : ("[COPY]".data).length = 6 := rfl

theorem copyTag_drop_ne_nil {k : Nat} (hk : k < 6) : "[COPY]".data.drop k ≠ [] := by
  intro hnil
  have hlen := congrArg List.length hnil
  rw [List.length_drop, copyTag_length] at hlen
  simp only [List.length_nil] at hlen
  omega

/-- The marker `[COPY]` does not occur in a report of the shape `A ++ (p ++ "\"")` when
it occurs neither in `p` nor in the concrete text `A` (with no straddling
occurrence possible at the borders). -/
theorem not_strHas_quoted {A : String} (p : String)
    (hA : ¬ ("[COPY]".data <:+: A.data))
    (hstr : ∀ k, k < 6 → 0 < k → ¬ ("[COPY]".data.take k <:+ A.data))
    (hp : ¬ strHas p "[COPY]") :
    ¬ strHas (A ++ (p ++ "\"")) "[COPY]" := by
  intro h
  have h' : "[COPY]".data <:+: A.data ++ (p.data ++ "\"".data) := by
    simpa [strHas, data_append] using h
  rcases infix_append_decomp h' with h1 | h2 | ⟨k, hk0, hkN, htake, hdrop⟩
  · exact hA h1
  · rcases infix_append_decomp h2 with g1 | g2 | ⟨k, hk0, hkN, gtake, gdrop⟩
    · exact hp g1
    · exact absurd g2 (by decide)
    · rw [copyTag_length] at hkN
      have hh := head_of_prefix gdrop (copyTag_drop_ne_nil hkN)
      interval_cases k
      · exact absurd hh (by decide)
      · exact absurd hh (by decide)
      · exact absurd hh (by decide)
      · exact absurd hh (by decide)
      · exact absurd hh (by decide)
  · rw [copyTag_length] at hkN
    exact hstr k hkN hk0 htake

/-- The marker `[COPY]` does not occur in an error report
`"[ERROR] Failed on \"" ++ (p ++ ("\": " ++ m))` when it occurs neither in
the path `p` nor in the exception text `m`. -/
theorem not_strHas_msgFailedOn {p m : String} (hp : ¬ strHas p "[COPY]")
    (hm : ¬ strHas m "[COPY]") : ¬ strHas (msgFailedOn p m) "[COPY]" := by
  intro h
  have h' : "[COPY]".data <:+:
      "[ERROR] Failed on \"".data ++ (p.data ++ ("\": ".data ++ m.data)) := by
    simpa [strHas, msgFailedOn, data_append] using h
  rcases infix_append_decomp h' with h1 | h2 | ⟨k, hk0, hkN, htake, hdrop⟩
  · exact absurd h1 (by decide)
  · rcases infix_append_decomp h2 with g1 | g2 | ⟨k, hk0, hkN, gtake, gdrop⟩
    · exact hp g1
    · rcases infix_append_decomp g2 with f1 | f2 | ⟨k, hk0, hkN, ftake, fdrop⟩
      · exact absurd f1 (by decide)
      · exact hm f2
      · rw [copyTag_length] at hkN
        interval_cases k
        · exact absurd ftake (by decide)
        · exact absurd ftake (by decide)
        · exact absurd ftake (by decide)
        · exact absurd ftake (by decide)
        · exact absurd ftake (by decide)
    · rw [copyTag_length] at hkN
      have hh := head_of_prefix gdrop (copyTag_drop_ne_nil hkN)
      rw [show ("\": ".data ++ m.data).head? = some '"' from rfl] at hh
      interval_cases k
      · exact absurd hh (by decide)
      · exact absurd hh (by decide)
      · exact absurd hh (by decide)
      · exact absurd hh (by decide)
      · exact absurd hh (by decide)
  · rw [copyTag_length] at hkN
    interval_cases k
    · exact absurd htake (by decide)
    · exact absurd htake (by decide)
    · exact absurd htake (by decide)
    · exact absurd htake (by decide)
    · exact absurd htake (by decide)

theorem not_strHas_msgSkipNoTags {p : String} (hp : ¬ strHas p "[COPY]") :
    ¬ strHas (msgSkipNoTags p) "[COPY]" :=
  not_strHas_quoted p (by decide) (by decide) hp

theorem not_strHas_msgSkipNoCover {p : String} (hp : ¬ strHas p "[COPY]") :
    ¬ strHas (msgSkipNoCover p) "[COPY]" :=
  not_strHas_quoted p (by decide) (by decide) hp

/- ### Occurrence facts about the report strings -/

theorem strHas_msgCopyOk (out : String) : strHas (msgCopyOk out) "[COPY]" :=
  strHas_left _ (by decide)

theorem strHasB_msgCopyOk (out : String) :
    strHasB (msgCopyOk out) "[COPY]" = true :=
  strHasB_iff.2 (strHas_msgCopyOk out)

theorem strHas_msgSkipNoTags_path (p : String) : strHas (msgSkipNoTags p) p :=
  strHas_mid _ p _

theorem strHas_msgSkipNoCover_path (p : String) : strHas (msgSkipNoCover p) p :=
  strHas_mid _ p _

theorem strHas_msgFailedOn_path (p m : String) : strHas (msgFailedOn p m) p :=
  strHas_mid _ p _

theorem strHas_msgFailedOn_msg (p m : String) : strHas (msgFailedOn p m) m :=
  strHas_right _ (strHas_right p (strHas_right _ (strHas_self m)))

theorem strHas_msgDelErr_path (p m : String) : strHas (msgDelErr p m) p :=
  strHas_mid _ p _

theorem strHas_msgDelErr_msg (p m : String) : strHas (msgDelErr p m) m :=
  strHas_right _ (strHas_right p (strHas_right _ (strHas_self m)))

theorem strHas_msgReplaceOk_path (p : String) : strHas (msgReplaceOk p) p :=
  strHas_mid _ p _

theorem strHas_msgDelSkipNoTags_notags (p : String) :
    strHas (msgDelSkipNoTags p) "No tags" :=
  strHas_left _ (by decide)

theorem strStarts_skip_msgSkipNoTags (p : String) :
    strStarts "[SKIP]" (msgSkipNoTags p) :=
  strStarts_left _ (by decide)

theorem strStarts_skip_msgSkipNoCover (p : String) :
    strStarts "[SKIP]" (msgSkipNoCover p) :=
  strStarts_left _ (by decide)

theorem strStarts_err_msgFailedOn (p m : String) :
    strStarts "[ERROR]" (msgFailedOn p m) :=
  strStarts_left _ (by decide)

theorem strStarts_err_msgDelErr (p m : String) :
    strStarts "[ERROR]" (msgDelErr p m) :=
  strStarts_left _ (by decide)

/- ### Facts about `lastIdxOf` and the path helpers -/

theorem lastIdxOf_eq_none {c : Char} :
    ∀ {l : List Char}, lastIdxOf l c = none → c ∉ l := by
  intro l
  induction l with
  | nil => intro _; simp
  | cons a as ih =>
    intro h
    simp only [lastIdxOf] at h
    rcases hrec : lastIdxOf as c with _ | i
    · simp only [hrec] at h
      by_cases hac : a = c
      · rw [if_pos hac] at h
        exact absurd h (by simp)
      · simp only [List.mem_cons]
        rintro (rfl | hmem)
        · exact hac rfl
        · exact ih hrec hmem
    · simp only [hrec] at h
      exact absurd h (by simp)

theorem lastIdxOf_not_mem_drop {c : Char} :
    ∀ {l : List Char} {i : Nat}, lastIdxOf l c = some i → c ∉ l.drop (i + 1) := by
  intro l
  induction l with
  | nil => intro i h; simp [lastIdxOf] at h
  | cons a as ih =>
    intro i h
    simp only [lastIdxOf] at h
    rcases hrec : lastIdxOf as c with _ | j
    · simp only [hrec] at h
      by_cases hac : a = c
      · rw [if_pos hac] at h
        injection h with h
        subst h
        simpa using lastIdxOf_eq_none hrec
      · rw [if_neg hac] at h
        exact absurd h (by simp)
    · simp only [hrec, Option.some.injEq] at h
      subst h
      simpa using ih hrec

theorem afterLast_not_mem (l : List Char) (c : Char) : c ∉ afterLast l c := by
  unfold afterLast
  rcases h : lastIdxOf l c with _ | i
  · exact lastIdxOf_eq_none h
  · exact lastIdxOf_not_mem_drop h

theorem basename_no_slash (p : String) : '/' ∉ (basename p).data :=
  afterLast_not_mem p.data '/'

theorem mimeSubtype_no_slash (m : String) : '/' ∉ (mimeSubtype m).data :=
  afterLast_not_mem m.data '/'

theorem splitext_fst_no_slash {b : String} (hb : '/' ∉ b.data) :
    '/' ∉ ((splitext b).1).data := by
  rcases h : lastIdxOf b.data '.' with _ | d
  · simp only [splitext, h]
    exact hb
  · simp only [splitext, h]
    split
    · split
      · intro hmem
        exact hb (List.mem_of_mem_take hmem)
      · exact hb
    · exact hb

theorem joinCover_eq {name : String} (h : '/' ∉ name.data) :
    joinCover name = "cover_art/" ++ name := by
  unfold joinCover
  rw [if_neg]
  intro hh
  apply h
  cases hl : name.data with
  | nil => rw [hl] at hh; exact absurd hh (by simp)
  | cons a as =>
    rw [hl] at hh
    simp only [List.head?_cons, Option.some.injEq] at hh
    subst hh
    exact List.mem_cons_self _ as

/-- The output path computed by the copy operations is the literal
`cover_art/` directory followed by `<stem of the audio basename>.<mime
subtype>`: the basename contains no slash, so `os.path.join` really
concatenates. -/
theorem outPath_eq (p mime : String) :
    outPath p mime =
      "cover_art/" ++ ((splitext (basename p)).1 ++ ("." ++ mimeSubtype mime)) := by
  unfold outPath
  apply joinCover_eq
  rw [data_append, data_append]
  intro hmem
  rcases List.mem_append.1 hmem with h1 | h2
  · exact splitext_fst_no_slash (basename_no_slash p) h1
  · rcases List.mem_append.1 h2 with h3 | h4
    · exact absurd h3 (by decide)
    · exact mimeSubtype_no_slash mime h4

/- ### Behavioural helper lemmas about the operations -/

theorem getallFrames_cons {t : Tags} {fr : APIC} {rest : List APIC}
    (h : getallFrames (some t) = fr :: rest) :
    t.hasGetall = true ∧ t.apic = fr :: rest := by
  by_cases hg : t.hasGetall
  · exact ⟨hg, by simpa [getallFrames, hg] using h⟩
  · simp [getallFrames, hg] at h

namespace Mim

theorem copy_raises (p m : String) (w : Option String) (store : Option Tags) :
    copy_cover_art p ⟨.raises m, w⟩ store = ⟨msgFailedOn p m, none, store⟩ := rfl

theorem copy_noFile (p : String) (w : Option String) (store : Option Tags) :
    copy_cover_art p ⟨.noFile, w⟩ store = ⟨msgSkipNoTags p, none, store⟩ := rfl

theorem copy_store_eq (p : String) (env : CopyEnv) (store : Option Tags) :
    (copy_cover_art p env store).store = store := by
  obtain ⟨k, w⟩ := env
  cases k with
  | raises m => rfl
  | noFile => rfl
  | opens =>
    cases store with
    | none => rfl
    | some t =>
      unfold copy_cover_art
      dsimp only
      split
      · rfl
      · split
        · rfl
        · cases w <;> rfl

theorem copy_success (p : String) {store : Option Tags} {fr : APIC}
    {rest : List APIC} (h : getallFrames store = fr :: rest) :
    copy_cover_art p ⟨.opens, none⟩ store =
      ⟨msgCopyOk (outPath p fr.mime), some (outPath p fr.mime, fr.data),
        store⟩ := by
  cases store with
  | none => simp [getallFrames] at h
  | some t =>
    obtain ⟨hg, ha⟩ := getallFrames_cons h
    have hne : (t.apic.isEmpty && t.other.isEmpty) = false := by simp [ha]
    simp [copy_cover_art, hne, hg, ha]

theorem copy_writeFail (p m : String) {store : Option Tags} {fr : APIC}
    {rest : List APIC} (h : getallFrames store = fr :: rest) :
    copy_cover_art p ⟨.opens, some m⟩ store =
      ⟨msgFailedOn p m, none, store⟩ := by
  cases store with
  | none => simp [getallFrames] at h
  | some t =>
    obtain ⟨hg, ha⟩ := getallFrames_cons h
    have hne : (t.apic.isEmpty && t.other.isEmpty) = false := by simp [ha]
    simp [copy_cover_art, hne, hg, ha]

theorem copy_noframes (p : String) {env : CopyEnv} {store : Option Tags}
    (hk : env.kind = .opens) (h : getallFrames store = []) :
    ((copy_cover_art p env store).report = msgSkipNoTags p ∨
      (copy_cover_art p env store).report = msgSkipNoCover p) ∧
    (copy_cover_art p env store).written = none := by
  obtain ⟨k, w⟩ := env
  cases hk
  cases store with
  | none => simp [copy_cover_art]
  | some t =>
    by_cases he : (t.apic.isEmpty && t.other.isEmpty) = true
    · simp [copy_cover_art, he]
    · rw [Bool.not_eq_true] at he
      by_cases hg : t.hasGetall
      · have ha : t.apic = [] := by simpa [getallFrames, hg] using h
        simp only [copy_cover_art, he, hg, ha]
        split <;> simp
      · rw [Bool.not_eq_true] at hg
        simp [copy_cover_art, he, hg]

theorem delete_raises (p m : String) (se : Option String)
    (store : Option Tags) :
    delete_cover_art p ⟨.raises m, se⟩ store = ⟨msgDelErr p m, store⟩ := rfl

theorem delete_noFile (p : String) (se : Option String) (store : Option Tags) :
    delete_cover_art p ⟨.noFile, se⟩ store = ⟨msgDelSkipNoTags p, store⟩ := rfl

theorem delete_none (p : String) (se : Option String) :
    delete_cover_art p ⟨.opens, se⟩ none = ⟨msgDelSkipNoTags p, none⟩ := rfl

theorem delete_empty (p : String) (se : Option String) {t : Tags}
    (he : (t.apic.isEmpty && t.other.isEmpty) = true) :
    delete_cover_art p ⟨.opens, se⟩ (some t) =
      ⟨msgDelSkipNoTags p, some t⟩ := by
  simp [delete_cover_art, he]

theorem delete_success (p : String) {t : Tags}
    (he : (t.apic.isEmpty && t.other.isEmpty) = false)
    (hd : t.hasDelall = true) :
    delete_cover_art p ⟨.opens, none⟩ (some t) =
      ⟨msgDelOk p, some { t with apic := [] }⟩ := by
  simp [delete_cover_art, he, hd]

theorem delete_saveFail (p m : String) {t : Tags}
    (he : (t.apic.isEmpty && t.other.isEmpty) = false)
    (hd : t.hasDelall = true) :
    delete_cover_art p ⟨.opens, some m⟩ (some t) =
      ⟨msgDelErr p m, some t⟩ := by
  simp [delete_cover_art, he, hd]

theorem delete_noDelall (p : String) (se : Option String) {t : Tags}
    (he : (t.apic.isEmpty && t.other.isEmpty) = false)
    (hd : t.hasDelall = false) :
    delete_cover_art p ⟨.opens, se⟩ (some t) =
      ⟨msgDelSkipFormat p, some t⟩ := by
  simp [delete_cover_art, he, hd]

theorem replace_readFail (p ip m : String) (k : MP3Kind) (se : Option String)
    (store : Option Tags) :
    replace_cover_art p ip ⟨.error m, k, se⟩ store =
      ⟨msgFailedOn p m, store, none⟩ := rfl

theorem replace_openFail (p ip m : String) (image_data : Bytes)
    (se : Option String) (store : Option Tags) :
    replace_cover_art p ip ⟨.ok image_data, .raises m, se⟩ store =
      ⟨msgFailedOn p m, store, none⟩ := rfl

theorem replace_saveFail (p ip m : String) (image_data : Bytes)
    (store : Option Tags) :
    replace_cover_art p ip ⟨.ok image_data, .opens, some m⟩ store =
      ⟨msgFailedOn p m, store, none⟩ := rfl

theorem replace_success (p ip : String) (image_data : Bytes)
    (store : Option Tags) :
    replace_cover_art p ip ⟨.ok image_data, .opens, none⟩ store =
      ⟨msgReplaceOk p,
        some ⟨true, true,
          [⟨3, "image/" ++ ((splitext ip).2.drop 1).toLower, 3, "Cover",
            image_data⟩],
          (store.getD ⟨true, true, [], []⟩).other⟩,
        some 3⟩ := rfl

end Mim

namespace Cli

theorem copy_raises_c (p m : String) (silent : Bool) (w : Option String)
    (store : Option Tags) :
    copy_cover_art p silent ⟨.raises m, w⟩ store =
      ⟨[msgFailedOn p m], false, none, store⟩ := rfl

theorem copy_noFile_c (p : String) (silent : Bool) (w : Option String)
    (store : Option Tags) :
    copy_cover_art p silent ⟨.noFile, w⟩ store =
      ⟨if silent then [] else [msgSkipNoTags p], false, none, store⟩ := rfl

theorem copy_store_eq_c (p : String) (silent : Bool) (env : CopyEnv)
    (store : Option Tags) :
    (copy_cover_art p silent env store).store = store := by
  obtain ⟨k, w⟩ := env
  cases k with
  | raises m => rfl
  | noFile => rfl
  | opens =>
    cases store with
    | none => rfl
    | some t =>
      unfold copy_cover_art
      dsimp only
      split
      · rfl
      · split
        · rfl
        · cases w <;> rfl

theorem copy_success_c (p : String) (silent : Bool) {store : Option Tags}
    {fr : APIC} {rest : List APIC} (h : getallFrames store = fr :: rest) :
    copy_cover_art p silent ⟨.opens, none⟩ store =
      ⟨if silent then [] else [msgCopyOk (outPath p fr.mime)], true,
        some (outPath p fr.mime, fr.data), store⟩ := by
  cases store with
  | none => simp [getallFrames] at h
  | some t =>
    obtain ⟨hg, ha⟩ := getallFrames_cons h
    have hne : (t.apic.isEmpty && t.other.isEmpty) = false := by simp [ha]
    simp [copy_cover_art, hne, hg, ha]

theorem copy_writeFail_c (p m : String) (silent : Bool) {store : Option Tags}
    {fr : APIC} {rest : List APIC} (h : getallFrames store = fr :: rest) :
    copy_cover_art p silent ⟨.opens, some m⟩ store =
      ⟨[msgFailedOn p m], false, none, store⟩ := by
  cases store with
  | none => simp [getallFrames] at h
  | some t =>
    obtain ⟨hg, ha⟩ := getallFrames_cons h
    have hne : (t.apic.isEmpty && t.other.isEmpty) = false := by simp [ha]
    simp [copy_cover_art, hne, hg, ha]

theorem copy_noframes_c (p : String) (silent : Bool) {env : CopyEnv}
    {store : Option Tags} (hk : env.kind = .opens)
    (h : getallFrames store = []) :
    (copy_cover_art p silent env store).success = false ∧
    (copy_cover_art p silent env store).written = none ∧
    (silent = true → (copy_cover_art p silent env store).printed = []) := by
  obtain ⟨k, w⟩ := env
  cases hk
  cases store with
  | none => simp [copy_cover_art]
  | some t =>
    by_cases he : (t.apic.isEmpty && t.other.isEmpty) = true
    · simp [copy_cover_art, he]
    · rw [Bool.not_eq_true] at he
      by_cases hg : t.hasGetall
      · have ha : t.apic = [] := by simpa [getallFrames, hg] using h
        simp only [copy_cover_art, he, hg, ha]
        split <;> simp
      · rw [Bool.not_eq_true] at hg
        simp [copy_cover_art, he, hg]

/-- The CLI delete prints exactly the report string the GUI delete returns
and has the same effect on the tag store (the two function bodies are
identical up to print-vs-return). -/
theorem delete_eq (p : String) (env : DeleteEnv) (store : Option Tags) :
    delete_cover_art p env store =
      ⟨[(Mim.delete_cover_art p env store).report],
        (Mim.delete_cover_art p env store).store⟩ := by
  obtain ⟨k, se⟩ := env
  cases k with
  | raises m => rfl
  | noFile => rfl
  | opens =>
    cases store with
    | none => rfl
    | some t =>
      unfold delete_cover_art Mim.delete_cover_art
      by_cases he : (t.apic.isEmpty && t.other.isEmpty) = true
      · simp [he]
      · rw [Bool.not_eq_true] at he
        by_cases hd : t.hasDelall
        · cases se <;> simp [he, hd]
        · rw [Bool.not_eq_true] at hd
          simp [he, hd]

/-- The CLI replace prints exactly the report string the GUI replace returns
and has the same effect on the tag store. -/
theorem replace_eq (p ip : String) (env : ReplaceEnv) (store : Option Tags) :
    replace_cover_art p ip env store =
      ⟨[(Mim.replace_cover_art p ip env store).report],
        (Mim.replace_cover_art p ip env store).store,
        (Mim.replace_cover_art p ip env store).savedVersion⟩ := by
  obtain ⟨ri, k, se⟩ := env
  cases ri with
  | error m => rfl
  | ok image_data =>
    cases k with
    | raises m => rfl
    | opens => cases se <;> rfl

end Cli

/- ### Claim theorems -/

/-- A report string carrying both the file path and the underlying failure
description. -/
def errReport (r p m : String) : Prop := strHas r p ∧ strHas r m

/-- Claim C1: whenever Replace returns its success report, the file's tag
store afterwards holds exactly one picture frame, whose payload is the bytes
read from the image path, whose MIME string is `image/` followed by the
image path's lowercased extension, whose picture-type and encoding marker are
the fixed value 3 and whose description is `Cover`; the store was persisted
with the backward-compatible version hint (`v2_version=3`), and the success
report carries the target file path.  The CLI variant prints the same report
and persists the same store. -/
theorem claim_C1_replace_success (p ip : String) (env : ReplaceEnv)
    (store : Option Tags)
    (h : (Mim.replace_cover_art p ip env store).report = msgReplaceOk p) :
    ∃ image_data, env.readImage = .ok image_data ∧
      (Mim.replace_cover_art p ip env store).store =
        some ⟨true, true,
          [⟨3, "image/" ++ ((splitext ip).2.drop 1).toLower, 3, "Cover",
            image_data⟩],
          (store.getD ⟨true, true, [], []⟩).other⟩ ∧
      (Mim.replace_cover_art p ip env store).savedVersion = some 3 ∧
      strHas (Mim.replace_cover_art p ip env store).report p ∧
      Cli.replace_cover_art p ip env store =
        ⟨[msgReplaceOk p], (Mim.replace_cover_art p ip env store).store,
          some 3⟩ := by
  obtain ⟨ri, k, se⟩ := env
  cases ri with
  | error m =>
    rw [Mim.replace_readFail] at h
    exact absurd h (msgFailedOn_ne_msgReplaceOk p m p)
  | ok image_data =>
    cases k with
    | raises m =>
      rw [Mim.replace_openFail] at h
      exact absurd h (msgFailedOn_ne_msgReplaceOk p m p)
    | opens =>
      cases se with
      | some m =>
        rw [Mim.replace_saveFail] at h
        exact absurd h (msgFailedOn_ne_msgReplaceOk p m p)
      | none =>
        refine ⟨image_data, rfl, ?_, ?_, ?_, ?_⟩
        · rw [Mim.replace_success]
        · rw [Mim.replace_success]
        · rw [Mim.replace_success]
          exact strHas_msgReplaceOk_path p
        · rw [Cli.replace_eq, Mim.replace_success]

/-- Witness for C1: a concrete replace that reports success. -/
theorem claim_C1_replace_success_witness :
    ∃ image_data,
      (⟨Except.ok [7, 8], MP3Kind.opens, none⟩ : ReplaceEnv).readImage =
        .ok image_data ∧
      (Mim.replace_cover_art "song.mp3" "art/new.JPG"
          ⟨Except.ok [7, 8], MP3Kind.opens, none⟩ none).store =
        some ⟨true, true,
          [⟨3, "image/" ++ ((splitext "art/new.JPG").2.drop 1).toLower, 3,
            "Cover", image_data⟩],
          ((none : Option Tags).getD ⟨true, true, [], []⟩).other⟩ ∧
      (Mim.replace_cover_art "song.mp3" "art/new.JPG"
          ⟨Except.ok [7, 8], MP3Kind.opens, none⟩ none).savedVersion =
        some 3 ∧
      strHas (Mim.replace_cover_art "song.mp3" "art/new.JPG"
          ⟨Except.ok [7, 8], MP3Kind.opens, none⟩ none).report "song.mp3" ∧
      Cli.replace_cover_art "song.mp3" "art/new.JPG"
          ⟨Except.ok [7, 8], MP3Kind.opens, none⟩ none =
        ⟨[msgReplaceOk "song.mp3"],
          (Mim.replace_cover_art "song.mp3" "art/new.JPG"
            ⟨Except.ok [7, 8], MP3Kind.opens, none⟩ none).store, some 3⟩ :=
  claim_C1_replace_success "song.mp3" "art/new.JPG"
    ⟨Except.ok [7, 8], MP3Kind.opens, none⟩ none (by decide)

/-- Claim C2: the CLI Extract is the composition of Copy in silent mode and
Delete, with Delete attempted exactly when Copy succeeded; when Copy found
no picture frame (returned `False`), Extract reports the skip line and the
tag store is left unmodified. -/
theorem claim_C2_extract_composition (p : String) (cenv : CopyEnv)
    (denv : DeleteEnv) (store : Option Tags) :
    (Cli.extract_cover_art p cenv denv store).deleteAttempted =
      (Cli.copy_cover_art p true cenv store).success ∧
    ((Cli.copy_cover_art p true cenv store).success = true →
      Cli.extract_cover_art p cenv denv store =
        ⟨(Cli.copy_cover_art p true cenv store).printed ++
            (Cli.delete_cover_art p denv store).printed,
          (Cli.copy_cover_art p true cenv store).written,
          (Cli.delete_cover_art p denv store).store, true⟩) ∧
    ((Cli.copy_cover_art p true cenv store).success = false →
      (Cli.extract_cover_art p cenv denv store).store = store ∧
      (Cli.extract_cover_art p cenv denv store).deleteAttempted = false ∧
      msgSkipNoCover p ∈ (Cli.extract_cover_art p cenv denv store).printed) := by
  have hs := Cli.copy_store_eq_c p true cenv store
  cases hsucc : (Cli.copy_cover_art p true cenv store).success with
  | false =>
    refine ⟨?_, ?_, fun _ => ⟨?_, ?_, ?_⟩⟩
    · simp [Cli.extract_cover_art, hsucc]
    · intro hcontra
      simp [hsucc] at hcontra
    · simp [Cli.extract_cover_art, hsucc, hs]
    · simp [Cli.extract_cover_art, hsucc]
    · simp [Cli.extract_cover_art, hsucc]
  | true =>
    refine ⟨?_, fun _ => ?_, ?_⟩
    · simp [Cli.extract_cover_art, hsucc]
    · simp [Cli.extract_cover_art, hsucc, hs]
    · intro hcontra
      simp [hsucc] at hcontra

/-- Witness for C2: the skip conjunct at a file without tags, and the
composition conjunct at a file with a cover frame. -/
theorem claim_C2_extract_composition_witness :
    ((Cli.extract_cover_art "a.mp3" ⟨.opens, none⟩ ⟨.opens, none⟩ none).store =
        none ∧
      (Cli.extract_cover_art "a.mp3" ⟨.opens, none⟩ ⟨.opens, none⟩
          none).deleteAttempted = false ∧
      msgSkipNoCover "a.mp3" ∈
        (Cli.extract_cover_art "a.mp3" ⟨.opens, none⟩ ⟨.opens, none⟩
          none).printed) ∧
    Cli.extract_cover_art "b.mp3" ⟨.opens, none⟩ ⟨.opens, none⟩
        (some ⟨true, true, [⟨3, "image/jpeg", 3, "c", [1]⟩], []⟩) =
      ⟨(Cli.copy_cover_art "b.mp3" true ⟨.opens, none⟩
            (some ⟨true, true, [⟨3, "image/jpeg", 3, "c", [1]⟩], []⟩)).printed ++
          (Cli.delete_cover_art "b.mp3" ⟨.opens, none⟩
            (some ⟨true, true, [⟨3, "image/jpeg", 3, "c", [1]⟩], []⟩)).printed,
        (Cli.copy_cover_art "b.mp3" true ⟨.opens, none⟩
          (some ⟨true, true, [⟨3, "image/jpeg", 3, "c", [1]⟩], []⟩)).written,
        (Cli.delete_cover_art "b.mp3" ⟨.opens, none⟩
          (some ⟨true, true, [⟨3, "image/jpeg", 3, "c", [1]⟩], []⟩)).store,
        true⟩ :=
  ⟨(claim_C2_extract_composition "a.mp3" ⟨.opens, none⟩ ⟨.opens, none⟩
      none).2.2 (by decide),
    (claim_C2_extract_composition "b.mp3" ⟨.opens, none⟩ ⟨.opens, none⟩
      (some ⟨true, true, [⟨3, "image/jpeg", 3, "c", [1]⟩], []⟩)).2.1
      (by decide)⟩

/-- Claim C4: Copy reports a skip and writes nothing when the file has no
tag container or no picture frames; otherwise (open and write succeeding) it
writes the first frame's payload to
`cover_art/<audio-basename>.<mime-subtype>` (the subtype being the part of
the frame's MIME string after the last slash) and reports success carrying
that output path; in every case it leaves the source file's tag store
unmodified.  Both variants are covered. -/
theorem claim_C4_copy_behaviour (p : String) (env : CopyEnv)
    (store : Option Tags) (silent : Bool) :
    (Mim.copy_cover_art p env store).store = store ∧
    (Cli.copy_cover_art p silent env store).store = store ∧
    (env.kind = .noFile →
      strStarts "[SKIP]" (Mim.copy_cover_art p env store).report ∧
      (Mim.copy_cover_art p env store).written = none) ∧
    (env.kind = .opens → getallFrames store = [] →
      strStarts "[SKIP]" (Mim.copy_cover_art p env store).report ∧
      (Mim.copy_cover_art p env store).written = none ∧
      (Cli.copy_cover_art p silent env store).success = false ∧
      (Cli.copy_cover_art p silent env store).written = none) ∧
    (∀ fr rest, env.kind = .opens → env.writeErr = none →
      getallFrames store = fr :: rest →
      Mim.copy_cover_art p env store =
        ⟨msgCopyOk (outPath p fr.mime), some (outPath p fr.mime, fr.data),
          store⟩ ∧
      outPath p fr.mime =
        "cover_art/" ++
          ((splitext (basename p)).1 ++ ("." ++ mimeSubtype fr.mime)) ∧
      Cli.copy_cover_art p silent env store =
        ⟨if silent then [] else [msgCopyOk (outPath p fr.mime)], true,
          some (outPath p fr.mime, fr.data), store⟩) := by
  obtain ⟨k, w⟩ := env
  refine ⟨Mim.copy_store_eq p ⟨k, w⟩ store, Cli.copy_store_eq_c p silent ⟨k, w⟩
    store, ?_, ?_, ?_⟩
  · intro hk
    have hk' : k = OpenKind.noFile := hk
    subst hk'
    rw [Mim.copy_noFile]
    exact ⟨strStarts_skip_msgSkipNoTags p, rfl⟩
  · intro hk h
    obtain ⟨hr, hw⟩ := Mim.copy_noframes p hk h
    obtain ⟨hs2, hw2, _⟩ := Cli.copy_noframes_c p silent hk h
    refine ⟨?_, hw, hs2, hw2⟩
    rcases hr with hr | hr <;> rw [hr]
    · exact strStarts_skip_msgSkipNoTags p
    · exact strStarts_skip_msgSkipNoCover p
  · intro fr rest hk hw hfr
    have hk' : k = OpenKind.opens := hk
    subst hk'
    have hw' : w = none := hw
    subst hw'
    exact ⟨Mim.copy_success p hfr, outPath_eq p fr.mime,
      Cli.copy_success_c p silent hfr⟩

/-- Witness for C4: a skip on a file without tags, and a concrete successful
copy of an embedded JPEG out of `d/a.mp3`. -/
theorem claim_C4_copy_behaviour_witness :
    (strStarts "[SKIP]" (Mim.copy_cover_art "d/a.mp3" ⟨.opens, none⟩
        none).report ∧
      (Mim.copy_cover_art "d/a.mp3" ⟨.opens, none⟩ none).written = none ∧
      (Cli.copy_cover_art "d/a.mp3" false ⟨.opens, none⟩ none).success =
        false ∧
      (Cli.copy_cover_art "d/a.mp3" false ⟨.opens, none⟩ none).written =
        none) ∧
    (Mim.copy_cover_art "d/a.mp3" ⟨.opens, none⟩
        (some ⟨true, true, [⟨3, "image/jpeg", 3, "c", [9]⟩], []⟩) =
      ⟨msgCopyOk (outPath "d/a.mp3" "image/jpeg"),
        some (outPath "d/a.mp3" "image/jpeg", [9]),
        some ⟨true, true, [⟨3, "image/jpeg", 3, "c", [9]⟩], []⟩⟩ ∧
      outPath "d/a.mp3" "image/jpeg" =
        "cover_art/" ++
          ((splitext (basename "d/a.mp3")).1 ++
            ("." ++ mimeSubtype "image/jpeg")) ∧
      Cli.copy_cover_art "d/a.mp3" false ⟨.opens, none⟩
          (some ⟨true, true, [⟨3, "image/jpeg", 3, "c", [9]⟩], []⟩) =
        ⟨if false then [] else [msgCopyOk (outPath "d/a.mp3" "image/jpeg")],
          true, some (outPath "d/a.mp3" "image/jpeg", [9]),
          some ⟨true, true, [⟨3, "image/jpeg", 3, "c", [9]⟩], []⟩⟩) :=
  ⟨(claim_C4_copy_behaviour "d/a.mp3" ⟨.opens, none⟩ none false).2.2.2.1 rfl
      rfl,
    (claim_C4_copy_behaviour "d/a.mp3" ⟨.opens, none⟩
        (some ⟨true, true, [⟨3, "image/jpeg", 3, "c", [9]⟩], []⟩)
        false).2.2.2.2 ⟨3, "image/jpeg", 3, "c", [9]⟩ [] rfl rfl rfl⟩

/-- Counterexample to claim C3 as stated: on a file holding two picture
frames, Extract does not leave the second frame untouched — its delete phase
(which runs because the copy phase succeeded) removes every picture frame. -/
theorem claim_C3_counterexample :
    apicOf (some ⟨true, true,
        [⟨3, "image/jpeg", 3, "c1", [1]⟩, ⟨0, "image/png", 3, "c2", [2]⟩],
        []⟩ : Option Tags) =
      [⟨3, "image/jpeg", 3, "c1", [1]⟩, ⟨0, "image/png", 3, "c2", [2]⟩] ∧
    apicOf (Cli.extract_cover_art "a.mp3" ⟨.opens, none⟩ ⟨.opens, none⟩
        (some ⟨true, true,
          [⟨3, "image/jpeg", 3, "c1", [1]⟩, ⟨0, "image/png", 3, "c2", [2]⟩],
          []⟩)).store = [] ∧
    (⟨0, "image/png", 3, "c2", [2]⟩ : APIC) ∉
      apicOf (Cli.extract_cover_art "a.mp3" ⟨.opens, none⟩ ⟨.opens, none⟩
        (some ⟨true, true,
          [⟨3, "image/jpeg", 3, "c1", [1]⟩, ⟨0, "image/png", 3, "c2", [2]⟩],
          []⟩)).store := by
  decide

/-- Claim C3 (amended): Copy leaves every frame of the file untouched, while
Delete and Replace remove all picture frames (Replace clearing the whole
picture-frame set before adding its one new frame); Extract, whose delete
phase runs after a successful copy, likewise removes all picture frames
rather than leaving the frames after the first untouched. -/
theorem claim_C3_amended (p ip : String) (cenv : CopyEnv)
    (store : Option Tags) (image_data : Bytes) (silent : Bool) :
    (Mim.copy_cover_art p cenv store).store = store ∧
    (Cli.copy_cover_art p silent cenv store).store = store ∧
    (∀ t, store = some t → (t.apic.isEmpty && t.other.isEmpty) = false →
      t.hasDelall = true →
      (Mim.delete_cover_art p ⟨.opens, none⟩ store).store =
        some { t with apic := [] } ∧
      (Cli.delete_cover_art p ⟨.opens, none⟩ store).store =
        some { t with apic := [] }) ∧
    (∀ t, store = some t → t.hasGetall = true → t.hasDelall = true →
      t.apic ≠ [] →
      apicOf (Cli.extract_cover_art p ⟨.opens, none⟩ ⟨.opens, none⟩
        store).store = [] ∧
      apicOf (Mim.extract_cover_art p ⟨.opens, none⟩ ⟨.opens, none⟩
        store).store = []) ∧
    apicOf (Mim.replace_cover_art p ip ⟨.ok image_data, .opens, none⟩
        store).store =
      [⟨3, "image/" ++ ((splitext ip).2.drop 1).toLower, 3, "Cover",
        image_data⟩] := by
  refine ⟨Mim.copy_store_eq p cenv store, Cli.copy_store_eq_c p silent cenv
    store, ?_, ?_, ?_⟩
  · rintro t rfl he hd
    rw [Cli.delete_eq, Mim.delete_success p he hd]
    exact ⟨rfl, rfl⟩
  · rintro t rfl hg hd ha
    obtain ⟨fr, rest, hfr⟩ := List.exists_cons_of_ne_nil ha
    have hgf : getallFrames (some t) = fr :: rest := by
      simp [getallFrames, hg, hfr]
    have he : (t.apic.isEmpty && t.other.isEmpty) = false := by simp [hfr]
    constructor
    · have hc := Cli.copy_success_c p true hgf
      simp only [Cli.extract_cover_art, hc]
      rw [Cli.delete_eq, Mim.delete_success p he hd]
      simp [apicOf]
    · have hc := Mim.copy_success p hgf
      simp only [Mim.extract_cover_art, hc, strHasB_msgCopyOk, if_true]
      rw [Mim.delete_success p he hd]
      simp [apicOf]
  · rw [Mim.replace_success]
    simp [apicOf]

/-- Witness for the amended C3 at a two-frame file. -/
theorem claim_C3_amended_witness :
    apicOf (Cli.extract_cover_art "a.mp3" ⟨.opens, none⟩ ⟨.opens, none⟩
        (some ⟨true, true,
          [⟨3, "image/jpeg", 3, "c1", [1]⟩, ⟨0, "image/png", 3, "c2", [2]⟩],
          []⟩)).store = [] ∧
    apicOf (Mim.extract_cover_art "a.mp3" ⟨.opens, none⟩ ⟨.opens, none⟩
        (some ⟨true, true,
          [⟨3, "image/jpeg", 3, "c1", [1]⟩, ⟨0, "image/png", 3, "c2", [2]⟩],
          []⟩)).store = [] :=
  (claim_C3_amended "a.mp3" "x.jpg" ⟨.opens, none⟩
      (some ⟨true, true,
        [⟨3, "image/jpeg", 3, "c1", [1]⟩, ⟨0, "image/png", 3, "c2", [2]⟩],
        []⟩) [] false).2.2.2.1
    ⟨true, true,
      [⟨3, "image/jpeg", 3, "c1", [1]⟩, ⟨0, "image/png", 3, "c2", [2]⟩], []⟩
    rfl rfl rfl (by decide)

/-- Claim C6: after a (successful) Replace of the cover by the bytes of an
image, Copy extracts an output file whose bytes are identical to those of
the replacement image. -/
theorem claim_C6_replace_copy_roundtrip (p ip : String) (image_data : Bytes)
    (store : Option Tags) :
    (Mim.copy_cover_art p ⟨.opens, none⟩
        (Mim.replace_cover_art p ip ⟨.ok image_data, .opens, none⟩
          store).store).written =
      some (outPath p ("image/" ++ ((splitext ip).2.drop 1).toLower),
        image_data) := by
  rw [Mim.replace_success]
  rw [Mim.copy_success p
    (show getallFrames (some ⟨true, true,
        [⟨3, "image/" ++ ((splitext ip).2.drop 1).toLower, 3, "Cover",
          image_data⟩],
        (store.getD ⟨true, true, [], []⟩).other⟩) =
      (⟨3, "image/" ++ ((splitext ip).2.drop 1).toLower, 3, "Cover",
        image_data⟩ : APIC) :: [] from rfl)]

/-- Claim C7: Copy is idempotent — a second Copy run on the state the first
one left behind returns the identical result (same output path, same bytes:
it overwrites the same file instead of creating a second one), in both the
GUI and the CLI variant. -/
theorem claim_C7_copy_idempotent (p : String) (env : CopyEnv)
    (store : Option Tags) (silent : Bool) :
    Mim.copy_cover_art p env ((Mim.copy_cover_art p env store).store) =
      Mim.copy_cover_art p env store ∧
    Cli.copy_cover_art p silent env
        ((Cli.copy_cover_art p silent env store).store) =
      Cli.copy_cover_art p silent env store := by
  rw [Mim.copy_store_eq, Cli.copy_store_eq_c]
  exact ⟨rfl, rfl⟩

/-- Counterexample to claim C8 as stated: on a file whose tag container
exists but is empty (zero frames of any kind), Delete does not succeed
vacuously — Python truthiness treats the empty container like a missing one,
so the code reports the `No tags` skip instead of `[DELETE]` success. -/
theorem claim_C8_counterexample :
    (Cli.delete_cover_art "a.mp3" ⟨.opens, none⟩
        (some ⟨true, true, [], []⟩)).printed = [msgDelSkipNoTags "a.mp3"] ∧
    (Cli.delete_cover_art "a.mp3" ⟨.opens, none⟩
        (some ⟨true, true, [], []⟩)).printed ≠ [msgDelOk "a.mp3"] ∧
    (Mim.delete_cover_art "a.mp3" ⟨.opens, none⟩
        (some ⟨true, true, [], []⟩)).report ≠ msgDelOk "a.mp3" := by
  decide

/-- Claim C8 (amended): with no picture frame present, Copy and Extract
report a skip and write no output file; Delete reports the `No tags` skip
(leaving the store untouched) when the file has no tag container — or when
the container is present but empty, which Python truthiness conflates with
the missing case — and succeeds vacuously when a non-empty container
supporting `delall` holds zero picture frames (the store is then rewritten
unchanged). -/
theorem claim_C8_amended (p : String) (cenv : CopyEnv) (denv : DeleteEnv)
    (store : Option Tags) :
    (cenv.kind = .opens → getallFrames store = [] →
      strStarts "[SKIP]" (Mim.copy_cover_art p cenv store).report ∧
      (Mim.copy_cover_art p cenv store).written = none ∧
      strStarts "[SKIP]" (Mim.extract_cover_art p cenv denv store).report ∧
      (Mim.extract_cover_art p cenv denv store).written = none ∧
      (Cli.extract_cover_art p cenv denv store).written = none ∧
      msgSkipNoCover p ∈ (Cli.extract_cover_art p cenv denv store).printed) ∧
    (denv.kind = .opens → store = none →
      (Mim.delete_cover_art p denv store).report = msgDelSkipNoTags p ∧
      strHas (Mim.delete_cover_art p denv store).report "No tags" ∧
      (Mim.delete_cover_art p denv store).store = store ∧
      (Cli.delete_cover_art p denv store).printed = [msgDelSkipNoTags p]) ∧
    (∀ g d, store = some ⟨g, d, [], []⟩ → denv.kind = .opens →
      (Mim.delete_cover_art p denv store).report = msgDelSkipNoTags p ∧
      (Mim.delete_cover_art p denv store).store = store) ∧
    (∀ t, store = some t → t.apic = [] → t.other ≠ [] → t.hasDelall = true →
      Mim.delete_cover_art p ⟨.opens, none⟩ store = ⟨msgDelOk p, store⟩ ∧
      Cli.delete_cover_art p ⟨.opens, none⟩ store =
        ⟨[msgDelOk p], store⟩) := by
  refine ⟨?_, ?_, ?_, ?_⟩
  · intro hk h
    obtain ⟨hr, hw⟩ := Mim.copy_noframes p hk h
    obtain ⟨hs2, hw2, _⟩ := Cli.copy_noframes_c p true hk h
    have hskip : strStarts "[SKIP]" (Mim.copy_cover_art p cenv store).report := by
      rcases hr with hr | hr <;> rw [hr]
      · exact strStarts_skip_msgSkipNoTags p
      · exact strStarts_skip_msgSkipNoCover p
    refine ⟨hskip, hw, ?_, ?_, ?_, ?_⟩
    · simp only [Mim.extract_cover_art]
      cases hB : strHasB (Mim.copy_cover_art p cenv store).report "[COPY]" <;>
        simp only [hB, Bool.false_eq_true, if_false, if_true]
      · exact hskip
      · exact strStarts_left _ hskip
    · simp only [Mim.extract_cover_art]
      cases hB : strHasB (Mim.copy_cover_art p cenv store).report "[COPY]" <;>
        simp only [hB, Bool.false_eq_true, if_false, if_true] <;> exact hw
    · simp only [Cli.extract_cover_art, hs2, Bool.false_eq_true, if_false]
      exact hw2
    · simp only [Cli.extract_cover_art, hs2, Bool.false_eq_true, if_false]
      simp
  · intro hk hstore
    obtain ⟨k, se⟩ := denv
    have hk' : k = OpenKind.opens := hk
    subst hk'
    subst hstore
    rw [Cli.delete_eq, Mim.delete_none]
    exact ⟨rfl, strHas_msgDelSkipNoTags_notags p, rfl, rfl⟩
  · rintro g d rfl hk
    obtain ⟨k, se⟩ := denv
    have hk' : k = OpenKind.opens := hk
    subst hk'
    rw [Mim.delete_empty p se (by simp)]
    exact ⟨rfl, rfl⟩
  · rintro t rfl ha ho hd
    have he : (t.apic.isEmpty && t.other.isEmpty) = false := by
      simp [ha, ho]
    have heq : ({ t with apic := [] } : Tags) = t := by
      obtain ⟨tg, td, ta, tox⟩ := t
      simp only at ha
      subst ha
      rfl
    constructor
    · rw [Mim.delete_success p he hd, heq]
    · rw [Cli.delete_eq, Mim.delete_success p he hd, heq]

/-- Witness for the amended C8: a no-frame skip, a missing container, an
empty container, and a container holding only a title frame. -/
theorem claim_C8_amended_witness :
    (strStarts "[SKIP]" (Mim.copy_cover_art "a.mp3" ⟨.opens, none⟩
        none).report ∧
      (Mim.copy_cover_art "a.mp3" ⟨.opens, none⟩ none).written = none ∧
      strStarts "[SKIP]" (Mim.extract_cover_art "a.mp3" ⟨.opens, none⟩
        ⟨.opens, none⟩ none).report ∧
      (Mim.extract_cover_art "a.mp3" ⟨.opens, none⟩ ⟨.opens, none⟩
        none).written = none ∧
      (Cli.extract_cover_art "a.mp3" ⟨.opens, none⟩ ⟨.opens, none⟩
        none).written = none ∧
      msgSkipNoCover "a.mp3" ∈
        (Cli.extract_cover_art "a.mp3" ⟨.opens, none⟩ ⟨.opens, none⟩
          none).printed) ∧
    ((Mim.delete_cover_art "a.mp3" ⟨.opens, none⟩ none).report =
        msgDelSkipNoTags "a.mp3" ∧
      strHas (Mim.delete_cover_art "a.mp3" ⟨.opens, none⟩ none).report
        "No tags" ∧
      (Mim.delete_cover_art "a.mp3" ⟨.opens, none⟩ none).store = none ∧
      (Cli.delete_cover_art "a.mp3" ⟨.opens, none⟩ none).printed =
        [msgDelSkipNoTags "a.mp3"]) ∧
    ((Mim.delete_cover_art "a.mp3" ⟨.opens, none⟩
          (some ⟨true, true, [], []⟩)).report = msgDelSkipNoTags "a.mp3" ∧
      (Mim.delete_cover_art "a.mp3" ⟨.opens, none⟩
          (some ⟨true, true, [], []⟩)).store = some ⟨true, true, [], []⟩) ∧
    (Mim.delete_cover_art "a.mp3" ⟨.opens, none⟩
        (some ⟨true, true, [], ["TIT2"]⟩) =
      ⟨msgDelOk "a.mp3", some ⟨true, true, [], ["TIT2"]⟩⟩ ∧
      Cli.delete_cover_art "a.mp3" ⟨.opens, none⟩
          (some ⟨true, true, [], ["TIT2"]⟩) =
        ⟨[msgDelOk "a.mp3"], some ⟨true, true, [], ["TIT2"]⟩⟩) :=
  ⟨(claim_C8_amended "a.mp3" ⟨.opens, none⟩ ⟨.opens, none⟩ none).1 rfl rfl,
    (claim_C8_amended "a.mp3" ⟨.opens, none⟩ ⟨.opens, none⟩ none).2.1 rfl rfl,
    (claim_C8_amended "a.mp3" ⟨.opens, none⟩ ⟨.opens, none⟩
        (some ⟨true, true, [], []⟩)).2.2.1 true true rfl rfl,
    (claim_C8_amended "a.mp3" ⟨.opens, none⟩ ⟨.opens, none⟩
        (some ⟨true, true, [], ["TIT2"]⟩)).2.2.2
      ⟨true, true, [], ["TIT2"]⟩ rfl rfl (by decide) rfl⟩

/-- Claim C9: Replace opens its target strictly as an MP3/ID3 container, so
on any file the `MP3` constructor rejects (the non-MP3 formats) it reports an
error string carrying the file path and leaves the tag store unmodified and
unsaved, in both variants. -/
theorem claim_C9_replace_requires_mp3 (p ip m : String) (env : ReplaceEnv)
    (store : Option Tags) (h : env.kind = .raises m) :
    strStarts "[ERROR]" (Mim.replace_cover_art p ip env store).report ∧
    strHas (Mim.replace_cover_art p ip env store).report p ∧
    (Mim.replace_cover_art p ip env store).store = store ∧
    (Mim.replace_cover_art p ip env store).savedVersion = none ∧
    (Cli.replace_cover_art p ip env store).store = store ∧
    (Cli.replace_cover_art p ip env store).savedVersion = none ∧
    (Cli.replace_cover_art p ip env store).printed =
      [(Mim.replace_cover_art p ip env store).report] := by
  obtain ⟨ri, k, se⟩ := env
  have h' : k = MP3Kind.raises m := h
  subst h'
  cases ri with
  | error me =>
    rw [Cli.replace_eq, Mim.replace_readFail]
    exact ⟨strStarts_err_msgFailedOn p me, strHas_msgFailedOn_path p me, rfl,
      rfl, rfl, rfl, rfl⟩
  | ok image_data =>
    rw [Cli.replace_eq, Mim.replace_openFail]
    exact ⟨strStarts_err_msgFailedOn p m, strHas_msgFailedOn_path p m, rfl,
      rfl, rfl, rfl, rfl⟩

/-- Witness for C9: replacing the cover of a FLAC file, which the `MP3`
constructor rejects. -/
theorem claim_C9_replace_requires_mp3_witness :
    strStarts "[ERROR]" (Mim.replace_cover_art "a.flac" "x.jpg"
      ⟨Except.ok [1], MP3Kind.raises "not a valid MPEG file", none⟩
      (some ⟨false, false, [], ["VORBIS"]⟩)).report ∧
    strHas (Mim.replace_cover_art "a.flac" "x.jpg"
      ⟨Except.ok [1], MP3Kind.raises "not a valid MPEG file", none⟩
      (some ⟨false, false, [], ["VORBIS"]⟩)).report "a.flac" ∧
    (Mim.replace_cover_art "a.flac" "x.jpg"
        ⟨Except.ok [1], MP3Kind.raises "not a valid MPEG file", none⟩
        (some ⟨false, false, [], ["VORBIS"]⟩)).store =
      some ⟨false, false, [], ["VORBIS"]⟩ ∧
    (Mim.replace_cover_art "a.flac" "x.jpg"
        ⟨Except.ok [1], MP3Kind.raises "not a valid MPEG file", none⟩
        (some ⟨false, false, [], ["VORBIS"]⟩)).savedVersion = none ∧
    (Cli.replace_cover_art "a.flac" "x.jpg"
        ⟨Except.ok [1], MP3Kind.raises "not a valid MPEG file", none⟩
        (some ⟨false, false, [], ["VORBIS"]⟩)).store =
      some ⟨false, false, [], ["VORBIS"]⟩ ∧
    (Cli.replace_cover_art "a.flac" "x.jpg"
        ⟨Except.ok [1], MP3Kind.raises "not a valid MPEG file", none⟩
        (some ⟨false, false, [], ["VORBIS"]⟩)).savedVersion = none ∧
    (Cli.replace_cover_art "a.flac" "x.jpg"
        ⟨Except.ok [1], MP3Kind.raises "not a valid MPEG file", none⟩
        (some ⟨false, false, [], ["VORBIS"]⟩)).printed =
      [(Mim.replace_cover_art "a.flac" "x.jpg"
        ⟨Except.ok [1], MP3Kind.raises "not a valid MPEG file", none⟩
        (some ⟨false, false, [], ["VORBIS"]⟩)).report] :=
  claim_C9_replace_requires_mp3 "a.flac" "x.jpg" "not a valid MPEG file"
    ⟨Except.ok [1], MP3Kind.raises "not a valid MPEG file", none⟩
    (some ⟨false, false, [], ["VORBIS"]⟩) rfl

/-- Claim C5: at every point where the tag-store collaborator can fail (the
mutagen open, the output write, the tag save, the image read, the MP3 open),
each of the four operations returns normally — every operation of the model
is a total function — with a reported error string that contains both the
file path and the underlying failure's description, in both variants. -/
theorem claim_C5_error_policy (p ip m : String) (cenv : CopyEnv)
    (denv : DeleteEnv) (renv : ReplaceEnv) (store : Option Tags)
    (silent : Bool) (image_data : Bytes) :
    (cenv.kind = .raises m →
      errReport (Mim.copy_cover_art p cenv store).report p m ∧
      msgFailedOn p m ∈ (Cli.copy_cover_art p silent cenv store).printed) ∧
    (∀ fr rest, cenv.kind = .opens → cenv.writeErr = some m →
      getallFrames store = fr :: rest →
      errReport (Mim.copy_cover_art p cenv store).report p m ∧
      msgFailedOn p m ∈ (Cli.copy_cover_art p silent cenv store).printed) ∧
    (denv.kind = .raises m →
      errReport (Mim.delete_cover_art p denv store).report p m ∧
      msgDelErr p m ∈ (Cli.delete_cover_art p denv store).printed) ∧
    (∀ t, denv.kind = .opens → denv.saveErr = some m → store = some t →
      (t.apic.isEmpty && t.other.isEmpty) = false → t.hasDelall = true →
      errReport (Mim.delete_cover_art p denv store).report p m ∧
      msgDelErr p m ∈ (Cli.delete_cover_art p denv store).printed) ∧
    (cenv.kind = .raises m →
      errReport (Mim.extract_cover_art p cenv denv store).report p m ∧
      msgFailedOn p m ∈ (Cli.extract_cover_art p cenv denv store).printed) ∧
    (∀ t fr rest, cenv.kind = .opens → cenv.writeErr = none →
      denv.kind = .opens → denv.saveErr = some m → store = some t →
      getallFrames store = fr :: rest → t.hasDelall = true →
      errReport (Mim.extract_cover_art p cenv denv store).report p m ∧
      msgDelErr p m ∈ (Cli.extract_cover_art p cenv denv store).printed) ∧
    (renv.readImage = .error m →
      errReport (Mim.replace_cover_art p ip renv store).report p m ∧
      msgFailedOn p m ∈ (Cli.replace_cover_art p ip renv store).printed) ∧
    (renv.readImage = .ok image_data → renv.kind = .raises m →
      errReport (Mim.replace_cover_art p ip renv store).report p m ∧
      msgFailedOn p m ∈ (Cli.replace_cover_art p ip renv store).printed) ∧
    (renv.readImage = .ok image_data → renv.kind = .opens →
      renv.saveErr = some m →
      errReport (Mim.replace_cover_art p ip renv store).report p m ∧
      msgFailedOn p m ∈ (Cli.replace_cover_art p ip renv store).printed) := by
  obtain ⟨ck, cw⟩ := cenv
  obtain ⟨dk, dse⟩ := denv
  obtain ⟨ri, rk, rse⟩ := renv
  refine ⟨?_, ?_, ?_, ?_, ?_, ?_, ?_, ?_, ?_⟩
  · intro hk
    have hk' : ck = OpenKind.raises m := hk
    subst hk'
    rw [Mim.copy_raises, Cli.copy_raises_c]
    exact ⟨⟨strHas_msgFailedOn_path p m, strHas_msgFailedOn_msg p m⟩,
      by simp⟩
  · intro fr rest hk hw hgf
    have hk' : ck = OpenKind.opens := hk
    subst hk'
    have hw' : cw = some m := hw
    subst hw'
    rw [Mim.copy_writeFail p m hgf, Cli.copy_writeFail_c p m silent hgf]
    exact ⟨⟨strHas_msgFailedOn_path p m, strHas_msgFailedOn_msg p m⟩,
      by simp⟩
  · intro hk
    have hk' : dk = OpenKind.raises m := hk
    subst hk'
    rw [Cli.delete_eq, Mim.delete_raises]
    exact ⟨⟨strHas_msgDelErr_path p m, strHas_msgDelErr_msg p m⟩, by simp⟩
  · rintro t hk hse rfl he hd
    have hk' : dk = OpenKind.opens := hk
    subst hk'
    have hse' : dse = some m := hse
    subst hse'
    rw [Cli.delete_eq, Mim.delete_saveFail p m he hd]
    exact ⟨⟨strHas_msgDelErr_path p m, strHas_msgDelErr_msg p m⟩, by simp⟩
  · intro hk
    have hk' : ck = OpenKind.raises m := hk
    subst hk'
    constructor
    · simp only [Mim.extract_cover_art, Mim.copy_raises]
      cases hB : strHasB (msgFailedOn p m) "[COPY]"
      · simp only [hB, Bool.false_eq_true, if_false]
        exact ⟨strHas_msgFailedOn_path p m, strHas_msgFailedOn_msg p m⟩
      · simp only [hB, if_true]
        exact ⟨strHas_left _ (strHas_msgFailedOn_path p m),
          strHas_left _ (strHas_msgFailedOn_msg p m)⟩
    · simp only [Cli.extract_cover_art, Cli.copy_raises_c]
      simp
  · rintro t fr rest hk hw hdk hdse rfl hgf hd
    have hk' : ck = OpenKind.opens := hk
    subst hk'
    have hw' : cw = none := hw
    subst hw'
    have hdk' : dk = OpenKind.opens := hdk
    subst hdk'
    have hdse' : dse = some m := hdse
    subst hdse'
    have he : (t.apic.isEmpty && t.other.isEmpty) = false := by
      obtain ⟨hg, ha⟩ := getallFrames_cons hgf
      simp [ha]
    constructor
    · have hc := Mim.copy_success p hgf
      simp only [Mim.extract_cover_art, hc, strHasB_msgCopyOk, if_true]
      rw [Mim.delete_saveFail p m he hd]
      exact ⟨strHas_right _ (strHas_right _ (strHas_msgDelErr_path p m)),
        strHas_right _ (strHas_right _ (strHas_msgDelErr_msg p m))⟩
    · have hcc := Cli.copy_success_c p true hgf
      simp only [Cli.extract_cover_art, hcc, if_true]
      rw [Cli.delete_eq, Mim.delete_saveFail p m he hd]
      simp
  · intro hri
    have hri' : ri = Except.error m := hri
    subst hri'
    rw [Cli.replace_eq, Mim.replace_readFail]
    exact ⟨⟨strHas_msgFailedOn_path p m, strHas_msgFailedOn_msg p m⟩,
      by simp⟩
  · intro hri hk
    have hri' : ri = Except.ok image_data := hri
    subst hri'
    have hk' : rk = MP3Kind.raises m := hk
    subst hk'
    rw [Cli.replace_eq, Mim.replace_openFail]
    exact ⟨⟨strHas_msgFailedOn_path p m, strHas_msgFailedOn_msg p m⟩,
      by simp⟩
  · intro hri hk hse
    have hri' : ri = Except.ok image_data := hri
    subst hri'
    have hk' : rk = MP3Kind.opens := hk
    subst hk'
    have hse' : rse = some m := hse
    subst hse'
    rw [Cli.replace_eq, Mim.replace_saveFail]
    exact ⟨⟨strHas_msgFailedOn_path p m, strHas_msgFailedOn_msg p m⟩,
      by simp⟩

/-- Witness for C5: every failure point exercised at concrete inputs. -/
theorem claim_C5_error_policy_witness :
    (errReport (Mim.copy_cover_art "f.mp3" ⟨.raises "boom", none⟩
        none).report "f.mp3" "boom" ∧
      msgFailedOn "f.mp3" "boom" ∈
        (Cli.copy_cover_art "f.mp3" false ⟨.raises "boom", none⟩
          none).printed) ∧
    (errReport (Mim.copy_cover_art "f.mp3" ⟨.opens, some "disk full"⟩
        (some ⟨true, true, [⟨3, "image/jpeg", 3, "c", [1]⟩], []⟩)).report
        "f.mp3" "disk full" ∧
      msgFailedOn "f.mp3" "disk full" ∈
        (Cli.copy_cover_art "f.mp3" false ⟨.opens, some "disk full"⟩
          (some ⟨true, true, [⟨3, "image/jpeg", 3, "c", [1]⟩], []⟩)).printed) ∧
    (errReport (Mim.delete_cover_art "f.mp3" ⟨.raises "boom", none⟩
        none).report "f.mp3" "boom" ∧
      msgDelErr "f.mp3" "boom" ∈
        (Cli.delete_cover_art "f.mp3" ⟨.raises "boom", none⟩ none).printed) ∧
    (errReport (Mim.delete_cover_art "f.mp3" ⟨.opens, some "read-only"⟩
        (some ⟨true, true, [⟨3, "image/jpeg", 3, "c", [1]⟩], []⟩)).report
        "f.mp3" "read-only" ∧
      msgDelErr "f.mp3" "read-only" ∈
        (Cli.delete_cover_art "f.mp3" ⟨.opens, some "read-only"⟩
          (some ⟨true, true, [⟨3, "image/jpeg", 3, "c", [1]⟩], []⟩)).printed) ∧
    (errReport (Mim.extract_cover_art "f.mp3" ⟨.raises "boom", none⟩
        ⟨.opens, none⟩ none).report "f.mp3" "boom" ∧
      msgFailedOn "f.mp3" "boom" ∈
        (Cli.extract_cover_art "f.mp3" ⟨.raises "boom", none⟩ ⟨.opens, none⟩
          none).printed) ∧
    (errReport (Mim.extract_cover_art "f.mp3" ⟨.opens, none⟩
        ⟨.opens, some "read-only"⟩
        (some ⟨true, true, [⟨3, "image/jpeg", 3, "c", [1]⟩], []⟩)).report
        "f.mp3" "read-only" ∧
      msgDelErr "f.mp3" "read-only" ∈
        (Cli.extract_cover_art "f.mp3" ⟨.opens, none⟩
          ⟨.opens, some "read-only"⟩
          (some ⟨true, true, [⟨3, "image/jpeg", 3, "c", [1]⟩], []⟩)).printed) ∧
    (errReport (Mim.replace_cover_art "f.mp3" "x.jpg"
        ⟨.error "no image", .opens, none⟩ none).report "f.mp3" "no image" ∧
      msgFailedOn "f.mp3" "no image" ∈
        (Cli.replace_cover_art "f.mp3" "x.jpg"
          ⟨.error "no image", .opens, none⟩ none).printed) ∧
    (errReport (Mim.replace_cover_art "f.mp3" "x.jpg"
        ⟨.ok [1], .raises "not mpeg", none⟩ none).report "f.mp3"
        "not mpeg" ∧
      msgFailedOn "f.mp3" "not mpeg" ∈
        (Cli.replace_cover_art "f.mp3" "x.jpg"
          ⟨.ok [1], .raises "not mpeg", none⟩ none).printed) ∧
    (errReport (Mim.replace_cover_art "f.mp3" "x.jpg"
        ⟨.ok [1], .opens, some "read-only"⟩ none).report "f.mp3"
        "read-only" ∧
      msgFailedOn "f.mp3" "read-only" ∈
        (Cli.replace_cover_art "f.mp3" "x.jpg"
          ⟨.ok [1], .opens, some "read-only"⟩ none).printed) :=
  ⟨(claim_C5_error_policy "f.mp3" "x.jpg" "boom" ⟨.raises "boom", none⟩
      ⟨.opens, none⟩ ⟨.ok [1], .opens, none⟩ none false [1]).1 rfl,
    (claim_C5_error_policy "f.mp3" "x.jpg" "disk full"
        ⟨.opens, some "disk full"⟩ ⟨.opens, none⟩ ⟨.ok [1], .opens, none⟩
        (some ⟨true, true, [⟨3, "image/jpeg", 3, "c", [1]⟩], []⟩) false
        [1]).2.1 ⟨3, "image/jpeg", 3, "c", [1]⟩ [] rfl rfl rfl,
    (claim_C5_error_policy "f.mp3" "x.jpg" "boom" ⟨.opens, none⟩
      ⟨.raises "boom", none⟩ ⟨.ok [1], .opens, none⟩ none false [1]).2.2.1
      rfl,
    (claim_C5_error_policy "f.mp3" "x.jpg" "read-only" ⟨.opens, none⟩
        ⟨.opens, some "read-only"⟩ ⟨.ok [1], .opens, none⟩
        (some ⟨true, true, [⟨3, "image/jpeg", 3, "c", [1]⟩], []⟩) false
        [1]).2.2.2.1 ⟨true, true, [⟨3, "image/jpeg", 3, "c", [1]⟩], []⟩ rfl
      rfl rfl (by decide) rfl,
    (claim_C5_error_policy "f.mp3" "x.jpg" "boom" ⟨.raises "boom", none⟩
      ⟨.opens, none⟩ ⟨.ok [1], .opens, none⟩ none false [1]).2.2.2.2.1 rfl,
    (claim_C5_error_policy "f.mp3" "x.jpg" "read-only" ⟨.opens, none⟩
        ⟨.opens, some "read-only"⟩ ⟨.ok [1], .opens, none⟩
        (some ⟨true, true, [⟨3, "image/jpeg", 3, "c", [1]⟩], []⟩) false
        [1]).2.2.2.2.2.1 ⟨true, true, [⟨3, "image/jpeg", 3, "c", [1]⟩], []⟩
      ⟨3, "image/jpeg", 3, "c", [1]⟩ [] rfl rfl rfl rfl rfl rfl rfl,
    (claim_C5_error_policy "f.mp3" "x.jpg" "no image" ⟨.opens, none⟩
      ⟨.opens, none⟩ ⟨.error "no image", .opens, none⟩ none false
      [1]).2.2.2.2.2.2.1 rfl,
    (claim_C5_error_policy "f.mp3" "x.jpg" "not mpeg" ⟨.opens, none⟩
      ⟨.opens, none⟩ ⟨.ok [1], .raises "not mpeg", none⟩ none false
      [1]).2.2.2.2.2.2.2.1 rfl rfl,
    (claim_C5_error_policy "f.mp3" "x.jpg" "read-only" ⟨.opens, none⟩
      ⟨.opens, none⟩ ⟨.ok [1], .opens, some "read-only"⟩ none false
      [1]).2.2.2.2.2.2.2.2 rfl rfl rfl⟩

/- ### The `[COPY]` marker test of the GUI extract (claim C10) -/

theorem Mim.extract_deleteAttempted (p : String) (cenv : CopyEnv)
    (denv : DeleteEnv) (store : Option Tags) :
    (Mim.extract_cover_art p cenv denv store).deleteAttempted =
      strHasB (Mim.copy_cover_art p cenv store).report "[COPY]" := by
  simp only [Mim.extract_cover_art]
  cases h : strHasB (Mim.copy_cover_art p cenv store).report "[COPY]" <;>
    simp [h]

/-- When the audio path contains `[COPY]`, every report the copy phase can
produce contains `[COPY]` (the skip and error reports embed the path, the
success report starts with the marker). -/
theorem Mim.copy_report_copyTag_of_path {p : String} (cenv : CopyEnv)
    (store : Option Tags) (hp : strHas p "[COPY]") :
    strHas (Mim.copy_cover_art p cenv store).report "[COPY]" := by
  obtain ⟨k, w⟩ := cenv
  cases k with
  | raises m =>
    rw [Mim.copy_raises]
    exact strHas_trans (strHas_msgFailedOn_path p m) hp
  | noFile =>
    rw [Mim.copy_noFile]
    exact strHas_trans (strHas_msgSkipNoTags_path p) hp
  | opens =>
    cases store with
    | none =>
      show strHas (msgSkipNoTags p) "[COPY]"
      exact strHas_trans (strHas_msgSkipNoTags_path p) hp
    | some t =>
      by_cases he : (t.apic.isEmpty && t.other.isEmpty) = true
      · have hc : Mim.copy_cover_art p ⟨.opens, w⟩ (some t) =
            ⟨msgSkipNoTags p, none, some t⟩ := by
          simp [Mim.copy_cover_art, he]
        rw [hc]
        exact strHas_trans (strHas_msgSkipNoTags_path p) hp
      · rw [Bool.not_eq_true] at he
        cases hfr : (if t.hasGetall then t.apic else []) with
        | nil =>
          have hc : Mim.copy_cover_art p ⟨.opens, w⟩ (some t) =
              ⟨msgSkipNoCover p, none, some t⟩ := by
            simp [Mim.copy_cover_art, he, hfr]
          rw [hc]
          exact strHas_trans (strHas_msgSkipNoCover_path p) hp
        | cons fr rest =>
          cases w with
          | some m =>
            have hc : Mim.copy_cover_art p ⟨.opens, some m⟩ (some t) =
                ⟨msgFailedOn p m, none, some t⟩ := by
              simp [Mim.copy_cover_art, he, hfr]
            rw [hc]
            exact strHas_trans (strHas_msgFailedOn_path p m) hp
          | none =>
            have hc : Mim.copy_cover_art p ⟨.opens, none⟩ (some t) =
                ⟨msgCopyOk (outPath p fr.mime),
                  some (outPath p fr.mime, fr.data), some t⟩ := by
              simp [Mim.copy_cover_art, he, hfr]
            rw [hc]
            exact strHas_msgCopyOk _

/-- When neither the path nor any failure description thrown at the copy
phase contains `[COPY]`, the copy report contains `[COPY]` exactly when the
copy succeeded (wrote an output file). -/
theorem Mim.copy_report_copyTag_eq_success {p : String} {cenv : CopyEnv}
    {store : Option Tags} (hp : ¬ strHas p "[COPY]")
    (h1 : ∀ m, cenv.kind = .raises m → ¬ strHas m "[COPY]")
    (h2 : ∀ m, cenv.writeErr = some m → ¬ strHas m "[COPY]") :
    strHasB (Mim.copy_cover_art p cenv store).report "[COPY]" =
      (Mim.copy_cover_art p cenv store).written.isSome := by
  obtain ⟨k, w⟩ := cenv
  cases k with
  | raises m =>
    rw [Mim.copy_raises]
    simp [strHasB_false (not_strHas_msgFailedOn hp (h1 m rfl))]
  | noFile =>
    rw [Mim.copy_noFile]
    simp [strHasB_false (not_strHas_msgSkipNoTags hp)]
  | opens =>
    cases store with
    | none =>
      show strHasB (msgSkipNoTags p) "[COPY]" = Option.isSome none
      simp [strHasB_false (not_strHas_msgSkipNoTags hp)]
    | some t =>
      by_cases he : (t.apic.isEmpty && t.other.isEmpty) = true
      · have hc : Mim.copy_cover_art p ⟨.opens, w⟩ (some t) =
            ⟨msgSkipNoTags p, none, some t⟩ := by
          simp [Mim.copy_cover_art, he]
        rw [hc]
        simp [strHasB_false (not_strHas_msgSkipNoTags hp)]
      · rw [Bool.not_eq_true] at he
        cases hfr : (if t.hasGetall then t.apic else []) with
        | nil =>
          have hc : Mim.copy_cover_art p ⟨.opens, w⟩ (some t) =
              ⟨msgSkipNoCover p, none, some t⟩ := by
            simp [Mim.copy_cover_art, he, hfr]
          rw [hc]
          simp [strHasB_false (not_strHas_msgSkipNoCover hp)]
        | cons fr rest =>
          cases w with
          | some m =>
            have hc : Mim.copy_cover_art p ⟨.opens, some m⟩ (some t) =
                ⟨msgFailedOn p m, none, some t⟩ := by
              simp [Mim.copy_cover_art, he, hfr]
            rw [hc]
            simp [strHasB_false (not_strHas_msgFailedOn hp (h2 m rfl))]
          | none =>
            have hc : Mim.copy_cover_art p ⟨.opens, none⟩ (some t) =
                ⟨msgCopyOk (outPath p fr.mime),
                  some (outPath p fr.mime, fr.data), some t⟩ := by
              simp [Mim.copy_cover_art, he, hfr]
            rw [hc]
            simp [strHasB_msgCopyOk]

/-- Counterexample to claim C10 as stated: for the path `x.mp3`, which does
not contain `[COPY]`, Extract still attempts Delete after a failed Copy,
because the failure's description happens to contain `[COPY]` and the error
report embeds that description — so "Delete is attempted exactly when Copy
succeeded" does not hold for every path free of the marker. -/
theorem claim_C10_counterexample :
    ¬ strHas "x.mp3" "[COPY]" ∧
    (Mim.copy_cover_art "x.mp3" ⟨.raises "boom [COPY] boom", none⟩
        none).written = none ∧
    (Mim.extract_cover_art "x.mp3" ⟨.raises "boom [COPY] boom", none⟩
        ⟨.opens, none⟩ none).deleteAttempted = true := by
  refine ⟨by decide, rfl, ?_⟩
  decide

/-- Claim C10 (amended): the GUI Extract decides whether to delete by
testing whether `[COPY]` occurs in Copy's report string.  For any path
containing `[COPY]` it attempts Delete even when Copy skipped or failed; for
every path not containing `[COPY]`, and provided the failure descriptions
the copy phase can report (the exception texts) do not contain `[COPY]`
either, Delete is attempted exactly when Copy succeeded. -/
theorem claim_C10_amended (p : String) (cenv : CopyEnv) (denv : DeleteEnv)
    (store : Option Tags) :
    (strHas p "[COPY]" →
      (Mim.extract_cover_art p cenv denv store).deleteAttempted = true) ∧
    (¬ strHas p "[COPY]" →
      (∀ m, cenv.kind = .raises m → ¬ strHas m "[COPY]") →
      (∀ m, cenv.writeErr = some m → ¬ strHas m "[COPY]") →
      ((Mim.extract_cover_art p cenv denv store).deleteAttempted = true ↔
        (Mim.copy_cover_art p cenv store).written.isSome = true)) := by
  constructor
  · intro hp
    rw [Mim.extract_deleteAttempted]
    exact strHasB_iff.2 (Mim.copy_report_copyTag_of_path cenv store hp)
  · intro hp h1 h2
    rw [Mim.extract_deleteAttempted,
      Mim.copy_report_copyTag_eq_success hp h1 h2]

/-- Witness for the amended C10: a path carrying the marker forces the
delete attempt, and on a marker-free path the delete attempt coincides with
copy success. -/
theorem claim_C10_amended_witness :
    (Mim.extract_cover_art "a[COPY]b.mp3" ⟨.opens, none⟩ ⟨.opens, none⟩
        none).deleteAttempted = true ∧
    ((Mim.extract_cover_art "y.mp3" ⟨.opens, none⟩ ⟨.opens, none⟩
          (some ⟨true, true, [⟨3, "image/jpeg", 3, "c", [1]⟩,
            ⟨0, "image/png", 3, "d", [2]⟩], []⟩)).deleteAttempted = true ↔
      (Mim.copy_cover_art "y.mp3" ⟨.opens, none⟩
          (some ⟨true, true, [⟨3, "image/jpeg", 3, "c", [1]⟩,
            ⟨0, "image/png", 3, "d", [2]⟩], []⟩)).written.isSome = true) :=
  ⟨(claim_C10_amended "a[COPY]b.mp3" ⟨.opens, none⟩ ⟨.opens, none⟩ none).1
      (by decide),
    (claim_C10_amended "y.mp3" ⟨.opens, none⟩ ⟨.opens, none⟩
        (some ⟨true, true, [⟨3, "image/jpeg", 3, "c", [1]⟩,
          ⟨0, "image/png", 3, "d", [2]⟩], []⟩)).2 (by decide)
      (fun m hm => by simp at hm) (fun m hm => by simp at hm)⟩

end MIM
